import Mathlib

/-!
Verification of the export pipeline of the Index-Visualizer repository
(`exporter.py`), as a shallow embedding in Lean.

External effects (Earth Engine calls, the filesystem, `geemap` transfers,
`rasterio` merging) are modelled by passing their observable results as
explicit parameters: a transfer that may fail becomes a `Bool` saying
whether the destination file was created, the size-estimation call becomes
an `Option ℚ` (`none` = the provider raised), and so on.  The control flow
of the Python functions is translated faithfully from the source.  All the
modelled operations are pure Lean functions, hence deterministic by
construction.
-/

namespace IndexVisualizer

/-! ## Definitions

### Size estimation and the tiered single-raster export
(`exporter.py`, `_export_geotiff_enhanced`, `_chunked_geotiff_local_export`,
`_export_geotiff_to_drive`)

`Exporter.__init__` sets `self.max_pixels_no_chunk = 5000000`.  The size
check in `_export_geotiff_enhanced` sums `dimensions[0] * dimensions[1]`
over the reported bands; if the band list is empty it falls back to
`area_km2 * 4`; if the whole block raises, `needs_chunking = True`.
-/

/-- Pixel threshold before spatial chunking (`self.max_pixels_no_chunk`). -/
def maxPixelsNoChunk : ℚ := 5000000

/-- Size estimate from the image info: `some (bands, areaKm2)` models a
successful `image.getInfo()` (band pixel dimensions plus the bounds area),
`none` models the call raising. -/
def estimatePixels (info : Option (List (ℕ × ℕ) × ℚ)) : Option ℚ :=
  match info with
  | none => none
  | some (bands, areaKm2) =>
    if bands.isEmpty then some (areaKm2 * 4)
    else some (bands.foldl (fun acc d => acc + (d.1 : ℚ) * (d.2 : ℚ)) 0)

/-- `needs_chunking`: `size_estimate > self.max_pixels_no_chunk`, and
`True` when the estimate could not be computed (the bare `except`). -/
def needsChunking : Option ℚ → Bool
  | none => true
  | some n => decide (maxPixelsNoChunk < n)

/-- Export tiers of the fallback chain. -/
inductive Tier
  | direct
  | chunked
  | remote
deriving DecidableEq

/-- Result of one single-raster GeoTIFF export request. -/
inductive GeoTiffOutcome
  | directSaved
  | mergedSaved (succeeded total : ℕ)
  | chunkedIncomplete (succeeded total : ℕ)
  | driveSubmitted
deriving DecidableEq

/-- Observable result of `_chunked_geotiff_local_export`: the outcome
returned to the caller, whether a Google Drive job was submitted, and
whether the chunk scratch directory was removed. -/
structure ChunkSweep where
  outcome : GeoTiffOutcome
  remoteSubmitted : Bool
  scratchRemoved : Bool
deriving DecidableEq

/-- `_chunked_geotiff_local_export` after the chunk sweep: `tiles` records,
for each chunk in loop order, whether its tile file was created, and
`mergeOk` whether the `rasterio` merge-and-write succeeded.  If at least
one tile exists the merge is attempted: on success the mosaic is written
and the scratch directory deleted; on failure the function returns the
"partially successful" message with the tiles left on disk.  If no tile
exists it falls back to `_export_geotiff_to_drive`. -/
def chunkedGeotiffLocalExport (tiles : List Bool) (mergeOk : Bool) : ChunkSweep :=
  if tiles.any id then
    if mergeOk then
      ⟨GeoTiffOutcome.mergedSaved (tiles.count true) tiles.length, false, true⟩
    else
      ⟨GeoTiffOutcome.chunkedIncomplete (tiles.count true) tiles.length, false, false⟩
  else
    ⟨GeoTiffOutcome.driveSubmitted, true, false⟩

/-- `_export_geotiff_enhanced`: oversized (or failed) estimate goes to the
chunked path; otherwise a direct local transfer is attempted, and on
failure (`directOk = false`) the function falls back to
`_export_geotiff_to_drive`. -/
def exportGeotiffEnhanced (est : Option ℚ) (directOk : Bool)
    (tiles : List Bool) (mergeOk : Bool) : GeoTiffOutcome :=
  if needsChunking est then (chunkedGeotiffLocalExport tiles mergeOk).outcome
  else if directOk then GeoTiffOutcome.directSaved
  else GeoTiffOutcome.driveSubmitted

/-- The sequence of tiers attempted by `_export_geotiff_enhanced`, in
order: the chunked path always attempts the chunk sweep first and submits
to Drive only when the sweep produced no tile; the direct path attempts
the direct transfer and submits to Drive when it fails. -/
def tiersAttempted (est : Option ℚ) (directOk : Bool)
    (tiles : List Bool) (mergeOk : Bool) : List Tier :=
  if needsChunking est then
    Tier.chunked ::
      (if (chunkedGeotiffLocalExport tiles mergeOk).remoteSubmitted then [Tier.remote] else [])
  else
    Tier.direct :: (if directOk then [] else [Tier.remote])

/-! ### Spatial chunking (`exporter.py`, `_chunked_geotiff_local_export`)

The bounds come from `image.geometry().bounds()`; `x_size = (max_x -
min_x) / num_chunks_x`, `y_size = (max_y - min_y) / num_chunks_y`, and the
double loop `for i in range(num_chunks_x): for j in range(num_chunks_y):`
produces chunk `(i, j)` with corners `min_x + i * x_size`, `min_y + j *
y_size`, `min_x + (i+1) * x_size`, `min_y + (j+1) * y_size`.  Coordinates
are modelled over `ℚ`.
-/

/-- A bounding rectangle `(min_x, min_y, max_x, max_y)`. -/
structure Bounds where
  minX : ℚ
  minY : ℚ
  maxX : ℚ
  maxY : ℚ
deriving DecidableEq

/-- Width `max_x - min_x` of a bounding rectangle. -/
def Bounds.width (b : Bounds) : ℚ := b.maxX - b.minX

/-- Height `max_y - min_y` of a bounding rectangle. -/
def Bounds.height (b : Bounds) : ℚ := b.maxY - b.minY

/-- Area of a bounding rectangle. -/
def Bounds.area (b : Bounds) : ℚ := b.width * b.height

/-- Closed membership: the point lies in the rectangle (borders included). -/
def Bounds.containsPoint (b : Bounds) (p : ℚ × ℚ) : Prop :=
  b.minX ≤ p.1 ∧ p.1 ≤ b.maxX ∧ b.minY ≤ p.2 ∧ p.2 ≤ b.maxY

/-- Strict membership: the point lies in the open interior of the
rectangle (borders excluded). -/
def Bounds.strictlyInside (b : Bounds) (p : ℚ × ℚ) : Prop :=
  b.minX < p.1 ∧ p.1 < b.maxX ∧ b.minY < p.2 ∧ p.2 < b.maxY

/-- Bounds of chunk `(i, j)` by linear subdivision of the parent's width
and height (`chunk_x_min = min_x + (i * x_size)` and so on). -/
def chunkBounds (b : Bounds) (nx ny : ℕ) (i j : ℕ) : Bounds :=
  ⟨b.minX + i * (b.width / nx), b.minY + j * (b.height / ny),
   b.minX + (i + 1) * (b.width / nx), b.minY + (j + 1) * (b.height / ny)⟩

/-- The chunk sequence in the order the nested loops of
`_chunked_geotiff_local_export` produce it: `i` (the x/column index) in
the outer loop, `j` (the y/row index) in the inner loop. -/
def chunkGrid (b : Bounds) (nx ny : ℕ) : List Bounds :=
  (List.range nx).flatMap (fun i => (List.range ny).map (chunkBounds b nx ny i))

/-- Modelled from the spec's words, for comparison with `chunkGrid`
(refinement): "row-major order — all chunks of the first grid row (in
increasing column order) before any chunk of the next grid row", i.e. the
y/row index `j` in the outer loop and the x/column index `i` inside. -/
def rowMajorChunkGrid (b : Bounds) (nx ny : ℕ) : List Bounds :=
  (List.range ny).flatMap (fun j => (List.range nx).map (fun i => chunkBounds b nx ny i j))

/-! ### Tabular (CSV) export (`exporter.py`, `_export_csv_enhanced`)

`Exporter.__init__` sets `self.max_rows_csv = 1000000`.  When
`num_rows > max_rows_csv` the frame is sliced as
`df.iloc[i*chunk_size : min((i+1)*chunk_size, num_rows)]` for
`i in range(num_chunks)`, `num_chunks = math.ceil(num_rows / chunk_size)`,
each part saved as `f"name_part_i+1_of_numChunks.csv"`, and a summary
index file lists every part name with its row count
`min(chunk_size, num_rows - i * chunk_size)`.
-/

/-- Row threshold before CSV chunking (`self.max_rows_csv`). -/
def maxRowsCsv : ℕ := 1000000

/-- `math.ceil(n / m)` for natural `n`, `m > 0`. -/
def sliceCount (n m : ℕ) : ℕ := (n + m - 1) / m

/-- Name of the i-th (0-based) CSV part file,
`f"name_part_i+1_of_N.csv"`. -/
def csvPartName (base : String) (i numParts : ℕ) : String :=
  base ++ "_part_" ++ toString (i + 1) ++ "_of_" ++ toString numParts ++ ".csv"

/-- Result of a CSV export: either one table written at the resolved path
or a list of named parts beside a named index of row counts. -/
inductive CsvExportResult (α : Type) where
  | single (rows : List α)
  | chunked (parts : List (String × List α)) (index : List (String × ℕ))
deriving DecidableEq

/-- `_export_csv_enhanced` on a row list: rows above the threshold are
split into `ceil(n / maxRows)` slices `rows[i*maxRows :
min((i+1)*maxRows, n)]`, and a summary index records each part's name and
row count. -/
def exportCsvEnhanced {α : Type} (base : String) (rows : List α)
    (maxRows : ℕ) : CsvExportResult α :=
  if maxRows < rows.length then
    CsvExportResult.chunked
      ((List.range (sliceCount rows.length maxRows)).map fun i =>
        (csvPartName base i (sliceCount rows.length maxRows),
         (rows.drop (i * maxRows)).take
           (min ((i + 1) * maxRows) rows.length - i * maxRows)))
      ((List.range (sliceCount rows.length maxRows)).map fun i =>
        (csvPartName base i (sliceCount rows.length maxRows),
         min maxRows (rows.length - i * maxRows)))
  else CsvExportResult.single rows

/-! ### All-years batch export (`exporter.py`, `_export_all_geotiff_enhanced`
and `_export_all_geotiff_to_drive`)

The year range is `range(start_year, end_year + 1)` with
`total_years = end_year - start_year + 1`.  The parallel path processes
the years in batches of `batch_size = 5` through `pool.map`, counting one
success or failure per year per batch; if the parallel machinery raises
before any batch ran (for example pool creation fails), the sequential
fallback processes every year one at a time with the same per-year
counting.  A year whose data provider returns `None` counts as failed
without an export attempt.  When `successful_exports == 0` at the end, the
whole batch is redone through `_export_all_geotiff_to_drive`, which starts
one Drive task per year for which the provider returns data.
-/

/-- The batch size of the parallel path (`batch_size = 5`). -/
def batchSize : ℕ := 5

/-- `range(start_year, end_year + 1)` as a list of years. -/
def yearRange (startYear endYear : ℤ) : List ℤ :=
  (List.range (endYear + 1 - startYear).toNat).map (fun k : ℕ => startYear + (k : ℤ))

/-- The year batches of the parallel path:
`years_to_export[i : i + batch_size]` for `i = 0, 5, 10, …`. -/
def yearBatches (years : List ℤ) : List (List ℤ) :=
  (List.range (sliceCount years.length batchSize)).map
    (fun k => (years.drop (k * batchSize)).take batchSize)

/-- One year's bookkeeping: `ok y` tells whether the year's export
attempt produced a file (`(True, year)` from `export_one_year`); the
accumulator is `(successful_exports, failed_exports)`. -/
def countYear (ok : ℤ → Bool) (acc : ℕ × ℕ) (y : ℤ) : ℕ × ℕ :=
  if ok y then (acc.1 + 1, acc.2) else (acc.1, acc.2 + 1)

/-- The parallel path: process the batches in order, counting every
year's result of `pool.map` within each batch. -/
def runParallelBatches (ok : ℤ → Bool) (years : List ℤ) : ℕ × ℕ :=
  (yearBatches years).foldl (fun acc batch => batch.foldl (countYear ok) acc) (0, 0)

/-- The sequential fallback path: process every year one at a time. -/
def runSequentialYears (ok : ℤ → Bool) (years : List ℤ) : ℕ × ℕ :=
  years.foldl (countYear ok) (0, 0)

/-- `(successful_exports, failed_exports)` at the end of
`_export_all_geotiff_enhanced`'s per-year loop, on whichever path ran. -/
def exportAllYearsCounts (parallelAvailable : Bool) (ok : ℤ → Bool)
    (startYear endYear : ℤ) : ℕ × ℕ :=
  if parallelAvailable then runParallelBatches ok (yearRange startYear endYear)
  else runSequentialYears ok (yearRange startYear endYear)

/-- Observable result of a whole `_export_all_geotiff_enhanced` call:
the success/failure counters, whether the batch fell through to
`_export_all_geotiff_to_drive`, and how many Drive export tasks that
fallback started. -/
structure AllYearsOutcome where
  completed : ℕ
  failed : ℕ
  usedDriveFallback : Bool
  driveTasksStarted : ℕ
deriving DecidableEq

/-- `task_count` of `_export_all_geotiff_to_drive`: one Drive task is
started per year for which `_get_data_for_year` returns data. -/
def driveTaskCount (hasData : ℤ → Bool) (years : List ℤ) : ℕ :=
  (years.filter hasData).length

/-- `_export_all_geotiff_enhanced`: a year succeeds when its provider
returns data (`hasData`) and the transfer creates the file
(`fileCreated`); with zero successes the batch is redone through
`_export_all_geotiff_to_drive`. -/
def exportAllGeotiffEnhanced (parallelAvailable : Bool)
    (hasData fileCreated : ℤ → Bool) (startYear endYear : ℤ) : AllYearsOutcome :=
  let counts := exportAllYearsCounts parallelAvailable
    (fun y => hasData y && fileCreated y) startYear endYear
  if 0 < counts.1 then ⟨counts.1, counts.2, false, 0⟩
  else ⟨counts.1, counts.2, true,
    driveTaskCount hasData (yearRange startYear endYear)⟩

/-! ### Export path resolution (`exporter.py`, `_get_export_path`)

`folder_name.split('/')` is modelled by passing the list of segments.
Python's `str.lower` / `str.upper` on the ASCII segment names are
modelled by per-character ASCII case mapping.  The final path is
`local_export_dir / format_type / fixed-segments / name.extension`; the
leading constant root directory is omitted from the model.
-/

/-- ASCII lower-casing of one character (`str.lower`). -/
def asciiLower (c : Char) : Char :=
  if 'A' ≤ c ∧ c ≤ 'Z' then Char.ofNat (c.toNat + 32) else c

/-- ASCII upper-casing of one character (`str.upper`). -/
def asciiUpper (c : Char) : Char :=
  if 'a' ≤ c ∧ c ≤ 'z' then Char.ofNat (c.toNat - 32) else c

/-- `str.lower` on a segment. -/
def lowerStr (s : String) : String := ⟨s.data.map asciiLower⟩

/-- `str.upper` on a segment. -/
def upperStr (s : String) : String := ⟨s.data.map asciiUpper⟩

/-- The three export formats the resolver distinguishes. -/
inductive FormatType
  | geoTiff
  | csv
  | netCdf
deriving DecidableEq

/-- The per-format subdirectory (`'GeoTIFF'`, `'CSV'`, `'NetCDF'`). -/
def formatDirName : FormatType → String
  | FormatType.geoTiff => "GeoTIFF"
  | FormatType.csv => "CSV"
  | FormatType.netCdf => "NetCDF"

/-- The format-appropriate default category segment. -/
def categoryDefault : FormatType → String
  | FormatType.geoTiff => "raster_data"
  | FormatType.csv => "tabular_data"
  | FormatType.netCdf => "climate_data"

/-- The recognized top-level directories
(`["ERA5", "PRISM", "DAYMET", "general", "Custom"]`). -/
def standardDirs : List String := ["ERA5", "PRISM", "DAYMET", "general", "Custom"]

/-- The catalog sources recognized up to case (`["ERA5", "PRISM", "DAYMET"]`). -/
def knownSources : List String := ["ERA5", "PRISM", "DAYMET"]

/-- First normalization step of `_get_export_path`: `parts[0]` equal to
"unknown" (case-insensitively) becomes "general"; a result not among the
standard directories is case-normalized against the known sources, and an
unrecognized source is nested under "Custom" — note that this last case
rebuilds `parts` as `["Custom", parts[0]]`, dropping every later
segment. -/
def fixSourceSegment (parts : List String) : List String :=
  match parts with
  | [] => []
  | p0 :: rest =>
    let p0a := if lowerStr p0 = "unknown" then "general" else p0
    if standardDirs.contains p0a then p0a :: rest
    else if knownSources.contains (upperStr p0a) then upperStr p0a :: rest
    else ["Custom", p0a]

/-- Second normalization step: `parts[1]` equal to "unknown"
(case-insensitively) becomes the format-appropriate default category. -/
def fixCategorySegment (f : FormatType) (parts : List String) : List String :=
  match parts with
  | p0 :: p1 :: rest =>
    if lowerStr p1 = "unknown" then p0 :: categoryDefault f :: rest
    else p0 :: p1 :: rest
  | other => other

/-- Third normalization step: pad to at least two segments. -/
def padParts (f : FormatType) (parts : List String) : List String :=
  match parts with
  | [] => ["general", "data"]
  | [p] => [p, categoryDefault f]
  | other => other

/-- The folder-segment normalization of `_get_export_path`, applied in
source order. -/
def fixParts (f : FormatType) (parts : List String) : List String :=
  padParts f (fixCategorySegment f (fixSourceSegment parts))

/-- `_get_export_path` as the list of path segments below the export
root: the format directory, the normalized non-empty folder segments, and
the file name `f"export_name.extension"`. -/
def getExportPath (f : FormatType) (folderSegments : List String)
    (name ext : String) : List String :=
  (formatDirName f :: (fixParts f folderSegments).filter (fun p => p ≠ ""))
    ++ [name ++ "." ++ ext]

/-! ## Theorems -/

/-! ### The tiered single-raster strategy: claims C1, C3, C4 -/

lemma needsChunking_eq_true_iff (est : Option ℚ) :
    needsChunking est = true ↔ est = none ∨ ∃ n, est = some n ∧ maxPixelsNoChunk < n := by
  cases est with
  | none => simp [needsChunking]
  | some n =>
    simp only [needsChunking, decide_eq_true_eq, reduceCtorEq, false_or]
    constructor
    · intro h
      exact ⟨n, rfl, h⟩
    · rintro ⟨m, hm, h⟩
      cases Option.some.inj hm
      exact h

/-- C3: the chunked path is chosen (attempted first) exactly when the size
estimate exceeds 5,000,000 pixels or size estimation failed; otherwise the
direct transfer is attempted first. -/
theorem chunked_iff_oversized_or_estimate_failed (est : Option ℚ) (directOk : Bool)
    (tiles : List Bool) (mergeOk : Bool) :
    ((tiersAttempted est directOk tiles mergeOk).head? = some Tier.chunked ↔
      est = none ∨ ∃ n, est = some n ∧ maxPixelsNoChunk < n) ∧
    ((tiersAttempted est directOk tiles mergeOk).head? = some Tier.direct ↔
      ¬(est = none ∨ ∃ n, est = some n ∧ maxPixelsNoChunk < n)) := by
  rw [← needsChunking_eq_true_iff]
  unfold tiersAttempted
  cases h : needsChunking est <;> simp [h]

/-- C1 counterexample: a small raster (estimate 100 pixels, not oversized)
whose direct transfer fails is escalated straight to the Drive fallback;
the chunked tier is never attempted, contradicting the claim that chunking
comes before any remote fallback on this path. -/
theorem direct_failure_skips_chunking_cex :
    needsChunking (some 100) = false ∧
    tiersAttempted (some 100) false [false, false, false, false] true
      = [Tier.direct, Tier.remote] ∧
    Tier.chunked ∉ tiersAttempted (some 100) false [false, false, false, false] true := by
  refine ⟨by decide, rfl, by decide⟩

/-- C1 (amended): for a single-raster export whose size estimate is not
oversized, a failed direct transfer falls back directly to a remote Drive
job; the chunked tier is not attempted on this path. -/
theorem direct_failure_goes_straight_to_drive (est : Option ℚ) (directOk : Bool)
    (tiles : List Bool) (mergeOk : Bool)
    (hsize : needsChunking est = false) (hfail : directOk = false) :
    tiersAttempted est directOk tiles mergeOk = [Tier.direct, Tier.remote] ∧
    Tier.chunked ∉ tiersAttempted est directOk tiles mergeOk := by
  subst hfail
  unfold tiersAttempted
  rw [hsize]
  simp

/-- C1 witness: the amended theorem applied at a concrete non-oversized
failing input. -/
theorem direct_failure_goes_straight_to_drive_witness :
    tiersAttempted (some 10) false [] true = [Tier.direct, Tier.remote] ∧
    Tier.chunked ∉ tiersAttempted (some 10) false [] true :=
  direct_failure_goes_straight_to_drive (some 10) false [] true (by decide) rfl

/-- C4: after the chunk sweep, zero existing tiles escalate to the Drive
fallback (a remote job is submitted); if at least one tile exists but the
merge fails, the outcome is the partially-successful one carrying the
chunk accounting, no remote job is submitted, and the tile scratch
directory is preserved. -/
theorem chunk_sweep_no_tiles_vs_merge_failure (tiles : List Bool) (mergeOk : Bool) :
    (tiles.any id = false →
      chunkedGeotiffLocalExport tiles mergeOk
        = ⟨GeoTiffOutcome.driveSubmitted, true, false⟩) ∧
    (tiles.any id = true → mergeOk = false →
      (chunkedGeotiffLocalExport tiles mergeOk).outcome
          = GeoTiffOutcome.chunkedIncomplete (tiles.count true) tiles.length ∧
        (chunkedGeotiffLocalExport tiles mergeOk).remoteSubmitted = false ∧
        (chunkedGeotiffLocalExport tiles mergeOk).scratchRemoved = false) := by
  constructor
  · intro h
    simp [chunkedGeotiffLocalExport, h]
  · intro h hm
    subst hm
    simp [chunkedGeotiffLocalExport, h]

/-- C4 witness: the theorem applied to the empty sweep (no tile created)
and to a 3-of-4 sweep with a failing merge. -/
theorem chunk_sweep_no_tiles_vs_merge_failure_witness :
    chunkedGeotiffLocalExport [false, false, false, false] true
      = ⟨GeoTiffOutcome.driveSubmitted, true, false⟩ ∧
    ((chunkedGeotiffLocalExport [true, true, false, true] false).outcome
        = GeoTiffOutcome.chunkedIncomplete 3 4 ∧
      (chunkedGeotiffLocalExport [true, true, false, true] false).remoteSubmitted = false ∧
      (chunkedGeotiffLocalExport [true, true, false, true] false).scratchRemoved = false) :=
  ⟨(chunk_sweep_no_tiles_vs_merge_failure [false, false, false, false] true).1 rfl,
   (chunk_sweep_no_tiles_vs_merge_failure [true, true, false, true] false).2 rfl rfl⟩

/-! ### The spatial chunker: claims C6, C9 -/

lemma chunkBounds_area (b : Bounds) (nx ny i j : ℕ) :
    (chunkBounds b nx ny i j).area = b.width / nx * (b.height / ny) := by
  simp only [chunkBounds, Bounds.area, Bounds.width, Bounds.height]
  ring

lemma sum_map_flatMap {α β γ : Type} [AddCommMonoid γ] (l : List α)
    (f : α → List β) (g : β → γ) :
    ((l.flatMap f).map g).sum = (l.map (fun a => ((f a).map g).sum)).sum := by
  induction l with
  | nil => simp
  | cons a t ih => simp [List.flatMap_cons, ih]

lemma chunkGrid_area_sum (b : Bounds) (nx ny : ℕ) (hnx : nx ≠ 0) (hny : ny ≠ 0) :
    ((chunkGrid b nx ny).map Bounds.area).sum = b.area := by
  have hnx' : (nx : ℚ) ≠ 0 := Nat.cast_ne_zero.mpr hnx
  have hny' : (ny : ℚ) ≠ 0 := Nat.cast_ne_zero.mpr hny
  rw [chunkGrid, sum_map_flatMap]
  have inner : ∀ i ∈ List.range nx,
      (((List.range ny).map (chunkBounds b nx ny i)).map Bounds.area).sum
        = (ny : ℚ) * (b.width / nx * (b.height / ny)) := by
    intro i _
    rw [List.map_map]
    have hcongr : ∀ j ∈ List.range ny,
        (Bounds.area ∘ chunkBounds b nx ny i) j = b.width / nx * (b.height / ny) :=
      fun j _ => chunkBounds_area b nx ny i j
    rw [List.map_congr_left hcongr, List.map_const', List.sum_replicate,
      List.length_range, nsmul_eq_mul]
  rw [List.map_congr_left inner, List.map_const', List.sum_replicate,
    List.length_range, nsmul_eq_mul, Bounds.area, Bounds.width, Bounds.height]
  field_simp
  ring

lemma exists_cell (a s x : ℚ) (_hs : 0 ≤ s) :
    ∀ n : ℕ, 0 < n → a ≤ x → x ≤ a + n * s →
      ∃ i : ℕ, i < n ∧ a + i * s ≤ x ∧ x ≤ a + (i + 1) * s := by
  intro n
  induction n with
  | zero => exact fun h => absurd h (lt_irrefl 0)
  | succ m ih =>
    intro _ h1 h2
    by_cases hm : m = 0
    · subst hm
      refine ⟨0, Nat.zero_lt_one, by simpa using h1, ?_⟩
      push_cast at h2 ⊢
      linarith
    · by_cases hx : x ≤ a + m * s
      · obtain ⟨i, hi, hl, hr⟩ := ih (Nat.pos_of_ne_zero hm) h1 hx
        exact ⟨i, Nat.lt_succ_of_lt hi, hl, hr⟩
      · push_neg at hx
        refine ⟨m, Nat.lt_succ_self m, le_of_lt hx, ?_⟩
        push_cast at h2 ⊢
        linarith

lemma cell_within (a w : ℚ) (n : ℕ) (hn : n ≠ 0) (hw : 0 ≤ w) (i : ℕ) (hi : i < n)
    (x : ℚ) (h1 : a + i * (w / n) ≤ x) (h2 : x ≤ a + (i + 1) * (w / n)) :
    a ≤ x ∧ x ≤ a + w := by
  have hn' : (0 : ℚ) < n := by
    exact_mod_cast Nat.pos_of_ne_zero hn
  have hs : 0 ≤ w / n := div_nonneg hw (le_of_lt hn')
  constructor
  · have hnn : 0 ≤ (i : ℚ) * (w / n) := mul_nonneg (by positivity) hs
    linarith
  · have hle : ((i : ℚ) + 1) ≤ (n : ℚ) := by exact_mod_cast Nat.succ_le_of_lt hi
    have hmul := mul_le_mul_of_nonneg_right hle hs
    have hnw : (n : ℚ) * (w / n) = w := by field_simp
    linarith

lemma mem_chunkGrid (b : Bounds) (nx ny i j : ℕ) (hi : i < nx) (hj : j < ny) :
    chunkBounds b nx ny i j ∈ chunkGrid b nx ny := by
  simp only [chunkGrid, List.mem_flatMap, List.mem_map, List.mem_range]
  exact ⟨i, hi, j, hj, rfl⟩

lemma cell_interiors_disjoint (a s x : ℚ) (hs : 0 ≤ s) {i i' : ℕ} (hii : i < i')
    (h1 : x < a + (i + 1) * s) (h2 : a + i' * s < x) : False := by
  have hle : ((i : ℚ) + 1) ≤ (i' : ℚ) := by exact_mod_cast hii
  have hmul := mul_le_mul_of_nonneg_right hle hs
  linarith

/-- C6: the chunk grid exactly tiles the parent bounds — the chunk areas
sum to the parent area, a point lies in the parent rectangle exactly when
it lies in some chunk of the grid, and two distinct chunks never share an
interior point (they may only meet at boundary coordinates). -/
theorem chunk_grid_exactly_tiles (b : Bounds) (nx ny : ℕ) (hnx : nx ≠ 0) (hny : ny ≠ 0)
    (hx : b.minX ≤ b.maxX) (hy : b.minY ≤ b.maxY) :
    ((chunkGrid b nx ny).map Bounds.area).sum = b.area ∧
    (∀ p : ℚ × ℚ, b.containsPoint p ↔ ∃ c ∈ chunkGrid b nx ny, c.containsPoint p) ∧
    (∀ i j i' j' : ℕ, i < nx → j < ny → i' < nx → j' < ny → (i, j) ≠ (i', j') →
      ∀ p : ℚ × ℚ, ¬((chunkBounds b nx ny i j).strictlyInside p ∧
        (chunkBounds b nx ny i' j').strictlyInside p)) := by
  have hsx : 0 ≤ b.width / nx :=
    div_nonneg (by simpa [Bounds.width] using sub_nonneg.mpr hx) (by positivity)
  have hsy : 0 ≤ b.height / ny :=
    div_nonneg (by simpa [Bounds.height] using sub_nonneg.mpr hy) (by positivity)
  refine ⟨chunkGrid_area_sum b nx ny hnx hny, ?_, ?_⟩
  · intro p
    constructor
    · rintro ⟨hx1, hx2, hy1, hy2⟩
      have hnx' : (nx : ℚ) ≠ 0 := Nat.cast_ne_zero.mpr hnx
      have hny' : (ny : ℚ) ≠ 0 := Nat.cast_ne_zero.mpr hny
      have hx2' : p.1 ≤ b.minX + nx * (b.width / nx) := by
        rw [mul_div_cancel₀ _ hnx']
        simpa [Bounds.width] using hx2
      have hy2' : p.2 ≤ b.minY + ny * (b.height / ny) := by
        rw [mul_div_cancel₀ _ hny']
        simpa [Bounds.height] using hy2
      obtain ⟨i, hi, hil, hir⟩ :=
        exists_cell b.minX (b.width / nx) p.1 hsx nx (Nat.pos_of_ne_zero hnx) hx1 hx2'
      obtain ⟨j, hj, hjl, hjr⟩ :=
        exists_cell b.minY (b.height / ny) p.2 hsy ny (Nat.pos_of_ne_zero hny) hy1 hy2'
      exact ⟨chunkBounds b nx ny i j, mem_chunkGrid b nx ny i j hi hj,
        hil, hir, hjl, hjr⟩
    · rintro ⟨c, hc, hcp⟩
      simp only [chunkGrid, List.mem_flatMap, List.mem_map, List.mem_range] at hc
      obtain ⟨i, hi, j, hj, rfl⟩ := hc
      obtain ⟨hx1, hx2, hy1, hy2⟩ := hcp
      have hwx : 0 ≤ b.width := by simpa [Bounds.width] using sub_nonneg.mpr hx
      have hwy : 0 ≤ b.height := by simpa [Bounds.height] using sub_nonneg.mpr hy
      obtain ⟨ha1, ha2⟩ := cell_within b.minX b.width nx hnx hwx i hi p.1 hx1 hx2
      obtain ⟨hb1, hb2⟩ := cell_within b.minY b.height ny hny hwy j hj p.2 hy1 hy2
      refine ⟨ha1, ?_, hb1, ?_⟩
      · simpa [Bounds.width] using ha2
      · simpa [Bounds.height] using hb2
  · rintro i j i' j' hi hj hi' hj' hne p ⟨⟨ha1, ha2, ha3, ha4⟩, ⟨hb1, hb2, hb3, hb4⟩⟩
    rcases Nat.lt_trichotomy i i' with h | h | h
    · exact cell_interiors_disjoint b.minX (b.width / nx) p.1 hsx h ha2 hb1
    · subst h
      rcases Nat.lt_trichotomy j j' with h' | h' | h'
      · exact cell_interiors_disjoint b.minY (b.height / ny) p.2 hsy h' ha4 hb3
      · exact hne (by rw [h'])
      · exact cell_interiors_disjoint b.minY (b.height / ny) p.2 hsy h' hb4 ha3
    · exact cell_interiors_disjoint b.minX (b.width / nx) p.1 hsx h hb2 ha1

/-- C6 witness: the tiling theorem applied to the parent rectangle
(0,0)–(2,2) with the default 2 × 2 grid. -/
theorem chunk_grid_exactly_tiles_witness :
    ((chunkGrid ⟨0, 0, 2, 2⟩ 2 2).map Bounds.area).sum = Bounds.area ⟨0, 0, 2, 2⟩ ∧
    (∀ p : ℚ × ℚ, Bounds.containsPoint ⟨0, 0, 2, 2⟩ p ↔
      ∃ c ∈ chunkGrid ⟨0, 0, 2, 2⟩ 2 2, c.containsPoint p) ∧
    (∀ i j i' j' : ℕ, i < 2 → j < 2 → i' < 2 → j' < 2 → (i, j) ≠ (i', j') →
      ∀ p : ℚ × ℚ, ¬((chunkBounds ⟨0, 0, 2, 2⟩ 2 2 i j).strictlyInside p ∧
        (chunkBounds ⟨0, 0, 2, 2⟩ 2 2 i' j').strictlyInside p)) :=
  chunk_grid_exactly_tiles ⟨0, 0, 2, 2⟩ 2 2 (by decide) (by decide)
    (by norm_num) (by norm_num)

lemma range_flatMap_map {α : Type} (m n : ℕ) (f : ℕ → ℕ → α) :
    (List.range m).flatMap (fun i => (List.range n).map (f i))
      = (List.range (m * n)).map (fun k => f (k / n) (k % n)) := by
  induction m with
  | zero => simp
  | succ m ih =>
    rw [List.range_succ, List.flatMap_append, ih, Nat.succ_mul, List.range_add,
      List.map_append, List.flatMap_singleton, List.map_map]
    congr 1
    apply List.map_congr_left
    intro j hj
    rw [List.mem_range] at hj
    have hn : 0 < n := lt_of_le_of_lt (Nat.zero_le j) hj
    simp only [Function.comp_apply]
    rw [mul_comm m n, Nat.mul_add_div hn, Nat.mul_add_mod,
      Nat.div_eq_of_lt hj, Nat.mod_eq_of_lt hj, Nat.add_zero]

/-- C9 counterexample: with the default 2 × 2 grid on the rectangle
(0,0)–(2,2), the enumerated sequence is chunk (0,0), (0,1), (1,0), (1,1)
in (column, row) coordinates: the second chunk produced already belongs to
the second grid row while a first-row chunk comes only third, so the order
is not row-major. -/
theorem chunk_grid_not_row_major_cex :
    chunkGrid ⟨0, 0, 2, 2⟩ 2 2
      = [chunkBounds ⟨0, 0, 2, 2⟩ 2 2 0 0, chunkBounds ⟨0, 0, 2, 2⟩ 2 2 0 1,
         chunkBounds ⟨0, 0, 2, 2⟩ 2 2 1 0, chunkBounds ⟨0, 0, 2, 2⟩ 2 2 1 1] ∧
    chunkGrid ⟨0, 0, 2, 2⟩ 2 2 ≠ rowMajorChunkGrid ⟨0, 0, 2, 2⟩ 2 2 := by
  refine ⟨rfl, fun h => ?_⟩
  have h' : [chunkBounds ⟨0, 0, 2, 2⟩ 2 2 0 0, chunkBounds ⟨0, 0, 2, 2⟩ 2 2 0 1,
      chunkBounds ⟨0, 0, 2, 2⟩ 2 2 1 0, chunkBounds ⟨0, 0, 2, 2⟩ 2 2 1 1]
      = [chunkBounds ⟨0, 0, 2, 2⟩ 2 2 0 0, chunkBounds ⟨0, 0, 2, 2⟩ 2 2 1 0,
         chunkBounds ⟨0, 0, 2, 2⟩ 2 2 0 1, chunkBounds ⟨0, 0, 2, 2⟩ 2 2 1 1] := h
  have h2 : chunkBounds ⟨0, 0, 2, 2⟩ 2 2 0 1 = chunkBounds ⟨0, 0, 2, 2⟩ 2 2 1 0 := by
    injection h' with h0 htail
    injection htail with hEq _
  have h3 := congrArg Bounds.minY h2
  norm_num [chunkBounds, Bounds.height] at h3

/-- C9 (amended): the chunker yields the chunks in column-major order —
the k-th chunk produced is the one with column index `k / ny` and row
index `k % ny`, so all chunks of a grid column (in increasing row order)
come before any chunk of the next column. -/
theorem chunk_grid_enumeration_column_major (b : Bounds) (nx ny : ℕ) :
    chunkGrid b nx ny
      = (List.range (nx * ny)).map (fun k => chunkBounds b nx ny (k / ny) (k % ny)) :=
  range_flatMap_map nx ny (chunkBounds b nx ny)

/-! ### Shared slicing arithmetic (used by the CSV and the batch claims) -/

lemma le_mul_sliceCount (n m : ℕ) (hm : 0 < m) : n ≤ m * sliceCount n m := by
  have h : m * sliceCount n m + (n + m - 1) % m = n + m - 1 :=
    Nat.div_add_mod (n + m - 1) m
  have h2 : (n + m - 1) % m < m := Nat.mod_lt _ hm
  omega

lemma mul_sliceCount_pred_lt (n m : ℕ) (hm : 0 < m) (hn : 0 < n) :
    m * (sliceCount n m - 1) < n := by
  have h : m * sliceCount n m + (n + m - 1) % m = n + m - 1 :=
    Nat.div_add_mod (n + m - 1) m
  have h2 : (n + m - 1) % m < m := Nat.mod_lt _ hm
  have h3 : m * (sliceCount n m - 1) + m = m * sliceCount n m ∨ sliceCount n m = 0 := by
    rcases Nat.eq_zero_or_pos (sliceCount n m) with h' | h'
    · exact Or.inr h'
    · left
      rw [← Nat.mul_succ]
      congr 1
      omega
  rcases h3 with h3 | h3
  · omega
  · rw [h3] at h
    omega

lemma flatten_slices_aux {α : Type} (m : ℕ) (l : List α) (k : ℕ) :
    ((List.range k).map (fun i => (l.drop (i * m)).take m)).flatten
      = l.take (min (k * m) l.length) := by
  induction k with
  | zero => simp
  | succ k ih =>
    rw [List.range_succ, List.map_append, List.flatten_append, ih]
    simp only [List.map_cons, List.map_nil, List.flatten_cons, List.flatten_nil,
      List.append_nil]
    by_cases h : l.length ≤ k * m
    · rw [List.drop_eq_nil_of_le h]
      simp only [List.take_nil, List.append_nil]
      rw [min_eq_right h,
        min_eq_right (le_trans h (Nat.mul_le_mul_right m (Nat.le_succ k))),
        List.take_length]
    · push_neg at h
      rw [min_eq_left (le_of_lt h), ← List.take_add, List.take_eq_take, Nat.succ_mul]
      omega

lemma flatten_slices {α : Type} (m : ℕ) (hm : 0 < m) (l : List α) :
    ((List.range (sliceCount l.length m)).map
      (fun i => (l.drop (i * m)).take m)).flatten = l := by
  rw [flatten_slices_aux]
  have h := le_mul_sliceCount l.length m hm
  rw [mul_comm m (sliceCount l.length m)] at h
  rw [min_eq_right h, List.take_length]

/-! ### The batch orchestrator: claims C2, C5 -/

lemma foldl_countYear_add (ok : ℤ → Bool) (l : List ℤ) (acc : ℕ × ℕ) :
    (l.foldl (countYear ok) acc).1 + (l.foldl (countYear ok) acc).2
      = acc.1 + acc.2 + l.length := by
  induction l generalizing acc with
  | nil => simp
  | cons y t ih =>
    rw [List.foldl_cons, ih]
    unfold countYear
    by_cases h : ok y <;> simp [h] <;> omega

lemma foldl_countYear_fst (ok : ℤ → Bool) (l : List ℤ) (acc : ℕ × ℕ) :
    (l.foldl (countYear ok) acc).1 = acc.1 + l.countP ok := by
  induction l generalizing acc with
  | nil => simp
  | cons y t ih =>
    rw [List.foldl_cons, ih, List.countP_cons]
    unfold countYear
    by_cases h : ok y
    · simp [h]
      omega
    · simp [h]

lemma runParallelBatches_eq_sequential (ok : ℤ → Bool) (years : List ℤ) :
    runParallelBatches ok years = runSequentialYears ok years := by
  unfold runParallelBatches runSequentialYears
  rw [← List.foldl_flatten]
  unfold yearBatches
  rw [flatten_slices batchSize (by decide) years]

lemma exportAllYearsCounts_eq_sequential (parallelAvailable : Bool) (ok : ℤ → Bool)
    (startYear endYear : ℤ) :
    exportAllYearsCounts parallelAvailable ok startYear endYear
      = runSequentialYears ok (yearRange startYear endYear) := by
  unfold exportAllYearsCounts
  cases parallelAvailable
  · simp
  · simp [runParallelBatches_eq_sequential]

lemma yearRange_length (startYear endYear : ℤ) :
    (yearRange startYear endYear).length = (endYear - startYear + 1).toNat := by
  unfold yearRange
  rw [List.length_map, List.length_range]
  omega

/-- C2: at the end of an all-years batch export over
[startYear, endYear], the successful and the failed year counts sum to
the total number of years in the range, on the parallel path and on the
sequential fallback path alike. -/
theorem batch_completed_plus_failed_eq_total (parallelAvailable : Bool) (ok : ℤ → Bool)
    (startYear endYear : ℤ) (_h : startYear ≤ endYear) :
    (exportAllYearsCounts parallelAvailable ok startYear endYear).1
      + (exportAllYearsCounts parallelAvailable ok startYear endYear).2
      = (endYear - startYear + 1).toNat := by
  rw [exportAllYearsCounts_eq_sequential]
  unfold runSequentialYears
  rw [foldl_countYear_add]
  simp [yearRange_length]

/-- C2 witness: the counting theorem applied to the 2018–2020 range on
the parallel path with one succeeding year. -/
theorem batch_completed_plus_failed_eq_total_witness :
    (exportAllYearsCounts true (fun y => decide (y = 2019)) 2018 2020).1
      + (exportAllYearsCounts true (fun y => decide (y = 2019)) 2018 2020).2
      = ((2020 : ℤ) - 2018 + 1).toNat :=
  batch_completed_plus_failed_eq_total true (fun y => decide (y = 2019)) 2018 2020
    (by decide)

/-- C5 counterexample: for the 2018–2020 batch whose per-year provider
returns null for every year, the batch ends with zero completed years and
falls through to the Drive fallback, but that fallback re-queries the same
provider and therefore starts zero Drive tasks — not one per year as
claimed (the range has 3 years). -/
theorem all_null_provider_zero_drive_jobs_cex :
    exportAllGeotiffEnhanced true (fun _ => false) (fun _ => true) 2018 2020
      = ⟨0, 3, true, 0⟩ ∧
    (exportAllGeotiffEnhanced true (fun _ => false) (fun _ => true)
        2018 2020).driveTasksStarted ≠ (yearRange 2018 2020).length := by
  constructor
  · decide
  · decide

/-- C5 (amended): for an all-years batch export whose per-year provider
returns null for every year, the batch ends with zero completed years and
escalates to the Drive-fallback routine, but that routine starts a Drive
task only for years whose provider returns data, hence zero tasks here —
not one per year. -/
theorem all_null_provider_escalates_with_zero_drive_jobs (parallelAvailable : Bool)
    (fileCreated : ℤ → Bool) (startYear endYear : ℤ) (_h : startYear ≤ endYear) :
    (exportAllGeotiffEnhanced parallelAvailable (fun _ => false) fileCreated
        startYear endYear).completed = 0 ∧
    (exportAllGeotiffEnhanced parallelAvailable (fun _ => false) fileCreated
        startYear endYear).usedDriveFallback = true ∧
    (exportAllGeotiffEnhanced parallelAvailable (fun _ => false) fileCreated
        startYear endYear).driveTasksStarted = 0 := by
  have hfst : (exportAllYearsCounts parallelAvailable
      (fun _ : ℤ => false) startYear endYear).1 = 0 := by
    rw [exportAllYearsCounts_eq_sequential]
    unfold runSequentialYears
    rw [foldl_countYear_fst]
    simp
  simp [exportAllGeotiffEnhanced, hfst, driveTaskCount]

/-- C5 witness: the amended theorem applied to the 2018–2020 range on the
sequential path. -/
theorem all_null_provider_escalates_with_zero_drive_jobs_witness :
    (exportAllGeotiffEnhanced false (fun _ => false) (fun _ => true)
        2018 2020).completed = 0 ∧
    (exportAllGeotiffEnhanced false (fun _ => false) (fun _ => true)
        2018 2020).usedDriveFallback = true ∧
    (exportAllGeotiffEnhanced false (fun _ => false) (fun _ => true)
        2018 2020).driveTasksStarted = 0 :=
  all_null_provider_escalates_with_zero_drive_jobs false (fun _ => true) 2018 2020
    (by decide)

/-! ### The tabular exporter: claims C7, C10 -/

lemma le_mul_sliceCount_pred_add (n m : ℕ) (hm : 0 < m) :
    n ≤ m * (sliceCount n m - 1) + m := by
  have h := le_mul_sliceCount n m hm
  rcases hNe : sliceCount n m with _ | k
  · rw [hNe, Nat.mul_zero] at h
    omega
  · rw [hNe, Nat.mul_succ] at h
    simpa using h

/-- C7: above the row threshold the tabular exporter writes exactly
`ceil(n / maxRows)` parts named `base_part_i_of_N.csv` (1-based), the
first `N - 1` of them holding `maxRows` rows each and the last holding
the remaining `n - (N-1) * maxRows` rows, beside an index that lists
every part name with its exact row count; at or below the threshold one
single table is written. -/
theorem csv_split_part_accounting {α : Type} (base : String) (rows : List α)
    (maxRows : ℕ) (hm : 0 < maxRows) :
    (rows.length ≤ maxRows →
      exportCsvEnhanced base rows maxRows = CsvExportResult.single rows) ∧
    (maxRows < rows.length →
      ∃ parts index,
        exportCsvEnhanced base rows maxRows = CsvExportResult.chunked parts index ∧
        parts.length = sliceCount rows.length maxRows ∧
        parts.map Prod.fst = (List.range (sliceCount rows.length maxRows)).map
          (fun i => csvPartName base i (sliceCount rows.length maxRows)) ∧
        parts.map (fun p => p.2.length)
          = (List.range (sliceCount rows.length maxRows)).map
            (fun i => if i + 1 < sliceCount rows.length maxRows then maxRows
              else rows.length - (sliceCount rows.length maxRows - 1) * maxRows) ∧
        index = parts.map (fun p => (p.1, p.2.length))) := by
  constructor
  · intro h
    unfold exportCsvEnhanced
    rw [if_neg (by omega)]
  · intro hbig
    have hn : 0 < rows.length := by omega
    have hA' : rows.length ≤ (sliceCount rows.length maxRows - 1) * maxRows + maxRows := by
      rw [mul_comm]
      exact le_mul_sliceCount_pred_add _ _ hm
    have hB' : (sliceCount rows.length maxRows - 1) * maxRows < rows.length := by
      rw [mul_comm]
      exact mul_sliceCount_pred_lt _ _ hm hn
    refine ⟨(List.range (sliceCount rows.length maxRows)).map fun i =>
        (csvPartName base i (sliceCount rows.length maxRows),
         (rows.drop (i * maxRows)).take
           (min ((i + 1) * maxRows) rows.length - i * maxRows)),
      (List.range (sliceCount rows.length maxRows)).map fun i =>
        (csvPartName base i (sliceCount rows.length maxRows),
         min maxRows (rows.length - i * maxRows)),
      ?_, ?_, ?_, ?_, ?_⟩
    · unfold exportCsvEnhanced
      rw [if_pos hbig]
    · simp
    · rw [List.map_map]
      rfl
    · rw [List.map_map]
      apply List.map_congr_left
      intro i hi
      rw [List.mem_range] at hi
      simp only [Function.comp_apply, List.length_take, List.length_drop]
      have e1 : (i + 1) * maxRows = i * maxRows + maxRows := by ring
      by_cases hcase : i + 1 < sliceCount rows.length maxRows
      · have hstep : (i + 1) * maxRows ≤ (sliceCount rows.length maxRows - 1) * maxRows :=
          Nat.mul_le_mul_right maxRows (by omega)
        rw [if_pos hcase, e1]
        rw [e1] at hstep
        omega
      · have hieq : i = sliceCount rows.length maxRows - 1 := by omega
        rw [if_neg hcase, e1, hieq]
        omega
    · rw [List.map_map]
      apply List.map_congr_left
      intro i hi
      rw [List.mem_range] at hi
      simp only [Function.comp_apply, List.length_take, List.length_drop,
        Prod.mk.injEq, true_and]
      rw [show (i + 1) * maxRows = i * maxRows + maxRows from by ring]
      omega

/-- C7 witness: the accounting theorem applied to five rows with a
two-row threshold (three parts of sizes 2, 2, 1). -/
theorem csv_split_part_accounting_witness :
    (([0, 1, 2, 3, 4] : List ℕ).length ≤ 2 →
      exportCsvEnhanced "t" [0, 1, 2, 3, 4] 2
        = CsvExportResult.single [0, 1, 2, 3, 4]) ∧
    (2 < ([0, 1, 2, 3, 4] : List ℕ).length →
      ∃ parts index,
        exportCsvEnhanced "t" [0, 1, 2, 3, 4] 2 = CsvExportResult.chunked parts index ∧
        parts.length = sliceCount ([0, 1, 2, 3, 4] : List ℕ).length 2 ∧
        parts.map Prod.fst = (List.range (sliceCount ([0, 1, 2, 3, 4] : List ℕ).length 2)).map
          (fun i => csvPartName "t" i (sliceCount ([0, 1, 2, 3, 4] : List ℕ).length 2)) ∧
        parts.map (fun p => p.2.length)
          = (List.range (sliceCount ([0, 1, 2, 3, 4] : List ℕ).length 2)).map
            (fun i => if i + 1 < sliceCount ([0, 1, 2, 3, 4] : List ℕ).length 2 then 2
              else ([0, 1, 2, 3, 4] : List ℕ).length
                - (sliceCount ([0, 1, 2, 3, 4] : List ℕ).length 2 - 1) * 2) ∧
        index = parts.map (fun p => (p.1, p.2.length))) :=
  csv_split_part_accounting "t" [0, 1, 2, 3, 4] 2 (by decide)

/-- C10: each part of a chunked tabular export is exactly the input slice
`rows[i*maxRows : min((i+1)*maxRows, n)]` in original order, and the
concatenation of all the parts reproduces the input row sequence — the
split is a lossless order-preserving partition. -/
theorem csv_parts_concat_reproduces_rows {α : Type} (base : String) (rows : List α)
    (maxRows : ℕ) (hm : 0 < maxRows) (hbig : maxRows < rows.length) :
    ∃ parts index,
      exportCsvEnhanced base rows maxRows = CsvExportResult.chunked parts index ∧
      (∀ i, i < sliceCount rows.length maxRows →
        parts[i]? = some (csvPartName base i (sliceCount rows.length maxRows),
          (rows.drop (i * maxRows)).take
            (min ((i + 1) * maxRows) rows.length - i * maxRows))) ∧
      (parts.map Prod.snd).flatten = rows := by
  refine ⟨(List.range (sliceCount rows.length maxRows)).map fun i =>
      (csvPartName base i (sliceCount rows.length maxRows),
       (rows.drop (i * maxRows)).take
         (min ((i + 1) * maxRows) rows.length - i * maxRows)),
    (List.range (sliceCount rows.length maxRows)).map fun i =>
      (csvPartName base i (sliceCount rows.length maxRows),
       min maxRows (rows.length - i * maxRows)),
    ?_, ?_, ?_⟩
  · unfold exportCsvEnhanced
    rw [if_pos hbig]
  · intro i hi
    rw [List.getElem?_map, List.getElem?_range hi]
    rfl
  · rw [List.map_map]
    have hcongr : ∀ i ∈ List.range (sliceCount rows.length maxRows),
        (Prod.snd ∘ fun i =>
          (csvPartName base i (sliceCount rows.length maxRows),
           (rows.drop (i * maxRows)).take
             (min ((i + 1) * maxRows) rows.length - i * maxRows))) i
          = (rows.drop (i * maxRows)).take maxRows := by
      intro i _
      simp only [Function.comp_apply]
      rw [List.take_eq_take, List.length_drop,
        show (i + 1) * maxRows = i * maxRows + maxRows from by ring]
      omega
    rw [List.map_congr_left hcongr, flatten_slices maxRows hm rows]

/-- C10 witness: the lossless-concatenation theorem applied to seven rows
with a three-row threshold. -/
theorem csv_parts_concat_reproduces_rows_witness :
    ∃ parts index,
      exportCsvEnhanced "u" [0, 1, 2, 3, 4, 5, 6] 3 = CsvExportResult.chunked parts index ∧
      (∀ i, i < sliceCount ([0, 1, 2, 3, 4, 5, 6] : List ℕ).length 3 →
        parts[i]? = some (csvPartName "u" i (sliceCount ([0, 1, 2, 3, 4, 5, 6] : List ℕ).length 3),
          (([0, 1, 2, 3, 4, 5, 6] : List ℕ).drop (i * 3)).take
            (min ((i + 1) * 3) ([0, 1, 2, 3, 4, 5, 6] : List ℕ).length - i * 3))) ∧
      (parts.map Prod.snd).flatten = [0, 1, 2, 3, 4, 5, 6] :=
  csv_parts_concat_reproduces_rows "u" [0, 1, 2, 3, 4, 5, 6] 3 (by decide) (by decide)

/-! ### The path resolver: claim C8 -/

lemma categoryDefault_ne_unknown (f : FormatType) : categoryDefault f ≠ "unknown" := by
  cases f <;> decide

lemma not_mem_pair (a x y : String) (hx : ¬ a = x) (hy : ¬ a = y) :
    a ∉ ([x, y] : List String) := by
  intro hmem
  rcases List.mem_cons.mp hmem with h | hmem1
  · exact hx h
  · rcases List.mem_cons.mp hmem1 with h | hmem2
    · exact hy h
    · simp at hmem2

lemma unknown_not_in_dropLast (f : FormatType) (segs : List String) (name ext : String)
    (h : "unknown" ∉ fixParts f segs) :
    "unknown" ∉ (getExportPath f segs name ext).dropLast := by
  unfold getExportPath
  rw [List.dropLast_concat]
  intro hmem
  rcases List.mem_cons.mp hmem with h1 | h1
  · cases f <;> exact absurd h1 (by decide)
  · exact h (List.mem_filter.mp h1).1

/-- C8 counterexample: for the logical folder "foo/unknown" (unrecognized
source, unknown category) the resolver nests the source under "Custom" and
drops the unknown category segment instead of replacing it with the
GeoTIFF default "raster_data": the returned path is
GeoTIFF/Custom/foo/out.tif, with no "raster_data" segment. -/
theorem unknown_category_dropped_cex :
    getExportPath FormatType.geoTiff ["foo", "unknown"] "out" "tif"
      = ["GeoTIFF", "Custom", "foo", "out.tif"] ∧
    "raster_data" ∉ getExportPath FormatType.geoTiff ["foo", "unknown"] "out" "tif" := by
  constructor
  · decide
  · decide

/-- C8 (amended): for a two-segment logical folder whose source or
category segment is the token "unknown", the resolved path never contains
the literal segment "unknown"; an unknown source segment is replaced by
"general", and an unknown category segment is replaced by the
format-appropriate default when the source segment resolves to a
recognized directory, while an unrecognized source nests the path under
"Custom" and the unknown category segment is dropped. -/
theorem unknown_segments_never_in_path (f : FormatType) (d i name ext : String)
    (h : d = "unknown" ∨ i = "unknown") :
    "unknown" ∉ fixParts f [d, i] ∧
    "unknown" ∉ (getExportPath f [d, i] name ext).dropLast ∧
    (d = "unknown" → (fixParts f [d, i]).head? = some "general") ∧
    (i = "unknown" → (fixParts f [d, i]).getLast? = some (categoryDefault f) ∨
      (fixParts f [d, i]).head? = some "Custom") := by
  have hcat := categoryDefault_ne_unknown f
  by_cases hld : lowerStr d = "unknown"
  · have hsrc : fixSourceSegment [d, i] = ["general", i] := by
      simp +decide [fixSourceSegment, hld]
    by_cases hli : lowerStr i = "unknown"
    · have hfix : fixParts f [d, i] = ["general", categoryDefault f] := by
        unfold fixParts
        rw [hsrc]
        simp [fixCategorySegment, padParts, hli]
      have h1 : "unknown" ∉ fixParts f [d, i] := by
        rw [hfix]
        exact not_mem_pair _ _ _ (by decide) (fun hh => hcat hh.symm)
      refine ⟨h1, unknown_not_in_dropLast f [d, i] name ext h1, ?_, ?_⟩
      · intro _
        rw [hfix]
        rfl
      · intro _
        left
        rw [hfix]
        rfl
    · have hi_ne : i ≠ "unknown" := fun hh => hli (by rw [hh]; decide)
      have hfix : fixParts f [d, i] = ["general", i] := by
        unfold fixParts
        rw [hsrc]
        simp [fixCategorySegment, padParts, hli]
      have h1 : "unknown" ∉ fixParts f [d, i] := by
        rw [hfix]
        exact not_mem_pair _ _ _ (by decide) (Ne.symm hi_ne)
      refine ⟨h1, unknown_not_in_dropLast f [d, i] name ext h1, ?_, ?_⟩
      · intro _
        rw [hfix]
        rfl
      · intro hi_eq
        exact absurd hi_eq hi_ne
  · have hd_ne : d ≠ "unknown" := fun hh => hld (by rw [hh]; decide)
    have hiu : i = "unknown" := by
      rcases h with h | h
      · exact absurd h hd_ne
      · exact h
    have hli : lowerStr i = "unknown" := by rw [hiu]; decide
    by_cases hstd : standardDirs.contains d = true
    · have hstd' : d ∈ standardDirs := by simpa using hstd
      have hsrc : fixSourceSegment [d, i] = [d, i] := by
        simp [fixSourceSegment, hld, hstd']
      have hfix : fixParts f [d, i] = [d, categoryDefault f] := by
        unfold fixParts
        rw [hsrc]
        simp [fixCategorySegment, padParts, hli]
      have h1 : "unknown" ∉ fixParts f [d, i] := by
        rw [hfix]
        exact not_mem_pair _ _ _ (Ne.symm hd_ne) (fun hh => hcat hh.symm)
      refine ⟨h1, unknown_not_in_dropLast f [d, i] name ext h1, ?_, ?_⟩
      · intro hd_eq
        exact absurd hd_eq hd_ne
      · intro _
        left
        rw [hfix]
        rfl
    · have hstd' : d ∉ standardDirs := by simpa using hstd
      by_cases hknown : knownSources.contains (upperStr d) = true
      · have hknown' : upperStr d ∈ knownSources := by simpa using hknown
        have hsrc : fixSourceSegment [d, i] = [upperStr d, i] := by
          simp [fixSourceSegment, hld, hstd', hknown']
        have hup_ne : upperStr d ≠ "unknown" := by
          have hmem : upperStr d = "ERA5" ∨ upperStr d = "PRISM" ∨ upperStr d = "DAYMET" := by
            simpa [knownSources] using hknown
          rcases hmem with hh | hh | hh <;> rw [hh] <;> decide
        have hfix : fixParts f [d, i] = [upperStr d, categoryDefault f] := by
          unfold fixParts
          rw [hsrc]
          simp [fixCategorySegment, padParts, hli]
        have h1 : "unknown" ∉ fixParts f [d, i] := by
          rw [hfix]
          exact not_mem_pair _ _ _ (Ne.symm hup_ne) (fun hh => hcat hh.symm)
        refine ⟨h1, unknown_not_in_dropLast f [d, i] name ext h1, ?_, ?_⟩
        · intro hd_eq
          exact absurd hd_eq hd_ne
        · intro _
          left
          rw [hfix]
          rfl
      · have hknown' : upperStr d ∉ knownSources := by simpa using hknown
        have hsrc : fixSourceSegment [d, i] = ["Custom", d] := by
          simp [fixSourceSegment, hld, hstd', hknown']
        have hfix : fixParts f [d, i] = ["Custom", d] := by
          unfold fixParts
          rw [hsrc]
          simp [fixCategorySegment, padParts, hld]
        have h1 : "unknown" ∉ fixParts f [d, i] := by
          rw [hfix]
          exact not_mem_pair _ _ _ (by decide) (Ne.symm hd_ne)
        refine ⟨h1, unknown_not_in_dropLast f [d, i] name ext h1, ?_, ?_⟩
        · intro hd_eq
          exact absurd hd_eq hd_ne
        · intro _
          right
          rw [hfix]
          rfl

/-- C8 witness: the normalization theorem applied to the fully unknown
logical folder "unknown/unknown" for the CSV format. -/
theorem unknown_segments_never_in_path_witness :
    "unknown" ∉ fixParts FormatType.csv ["unknown", "unknown"] ∧
    "unknown" ∉ (getExportPath FormatType.csv ["unknown", "unknown"] "n" "csv").dropLast ∧
    ("unknown" = "unknown" →
      (fixParts FormatType.csv ["unknown", "unknown"]).head? = some "general") ∧
    ("unknown" = "unknown" →
      (fixParts FormatType.csv ["unknown", "unknown"]).getLast?
          = some (categoryDefault FormatType.csv) ∨
        (fixParts FormatType.csv ["unknown", "unknown"]).head? = some "Custom") :=
  unknown_segments_never_in_path FormatType.csv "unknown" "unknown" "n" "csv" (Or.inl rfl)

end IndexVisualizer
